import Mathlib

/-!
Verification of the flex-convolution operator library (`layers.py`).

Tensors in the canonical `[batch, channel, element]` layout are embedded as
functions `Fin B → Fin D → Fin N → ℚ`; machine floating point is modelled by
exact rationals.  Neighborhood index tensors carry integers (`ℤ`), matching the
`tf.int32` indices the kernels consume.

The numeric kernel bodies (`_flex_convolution`, `_flex_pooling`,
`_flex_convolution_transpose`) are opaque externals imported from `user_ops`
and are not part of the repository source; they are modelled from the spec
(sections 4.1 to 4.4, with the adjoint property of section 8 taken as the
authoritative description of the transpose, as section 9 directs).  The layer
wrappers (`FlexPooling`, `FlexConvolution`, `FlexConvolutionTranspose` and the
module-level functions) are transcribed from `layers.py`.
-/

namespace FlexConv

/-- A rank-3 tensor `[B, D, N]` in the canonical layout, with exact rational
entries. -/
abbrev Tensor3 (B D N : ℕ) := Fin B → Fin D → Fin N → ℚ

/-- A rank-4 tensor `[B, D, 1, N]`: the `expanded` data format with a singleton
axis at position 2. -/
abbrev Tensor4 (B D N : ℕ) := Fin B → Fin D → Fin 1 → Fin N → ℚ

/-- An integer-valued rank-3 tensor, used for neighborhood indices. -/
abbrev ITensor3 (B K N : ℕ) := Fin B → Fin K → Fin N → ℤ

/-- Modelled from the spec: the Dynamic Weight Synthesizer (section 4.1).
Given learned parameters `theta` (WeightBasis, shape `[1, Dp, Din, Dout]`) and
`beta` (WeightBias, shape `[Din, Dout]`) and a neighbor position `p`, produce
the dense weight matrix `W(p) = beta + sum_d p[d] * theta[0, d, :, :]`. -/
def W {Dp Din Dout : ℕ} (theta : Fin 1 → Fin Dp → Fin Din → Fin Dout → ℚ)
    (beta : Fin Din → Fin Dout → ℚ) (p : Fin Dp → ℚ)
    (i : Fin Din) (o : Fin Dout) : ℚ :=
  beta i o + ∑ d, p d * theta 0 d i o

/-- Validity of a raw neighborhood index tensor: every entry lies in `[0, N)`. -/
def nbValidB {B K : ℕ} (N : ℕ) (nb : ITensor3 B K N) : Bool :=
  decide (∀ b k n, 0 ≤ nb b k n ∧ nb b k n < N)

/-- The checked view of a valid neighborhood tensor, as indices into `Fin N`. -/
def nbIdx {B K N : ℕ} (nb : ITensor3 B K N) (h : nbValidB N nb = true) :
    Fin B → Fin K → Fin N → Fin N :=
  fun b k n =>
    ⟨(nb b k n).toNat, by
      have h' := of_decide_eq_true h
      have hbkn := h' b k n
      omega⟩

/-- Modelled from the spec: the Flex Convolution Kernel forward pass
(section 4.2), on an already-validated neighborhood table `j`.  Each output
element `n` gathers its `K` neighbors, applies the synthesized per-neighbor
weight matrix and sums:
`out[b, o, n] = sum_k sum_i F[b, i, j(b,k,n)] * W(P[b, :, j(b,k,n)])[i, o]`. -/
def flexConvCore {B Din Dout Dp K N : ℕ} (F : Tensor3 B Din N)
    (P : Tensor3 B Dp N) (j : Fin B → Fin K → Fin N → Fin N)
    (theta : Fin 1 → Fin Dp → Fin Din → Fin Dout → ℚ)
    (beta : Fin Din → Fin Dout → ℚ) : Tensor3 B Dout N :=
  fun b o n => ∑ k, ∑ i,
    F b i (j b k n) * W theta beta (fun d => P b d (j b k n)) i o

/-- Modelled from the spec: the Flex Convolution Transpose Kernel forward pass
(sections 4.3 and 8).  The spec's section 9 designates the adjoint property of
section 8 as the authoritative description of this opaque kernel, so it is
modelled as the exact adjoint of `flexConvCore`: each element `n` scatters its
vector `G[b, :, n]` into every element `m` of its own neighbor list, applying
the transposed weight matrix synthesized at the destination position `m`. -/
def flexConvTransposeCore {B Din Dout Dp K N : ℕ} (G : Tensor3 B Dout N)
    (P : Tensor3 B Dp N) (j : Fin B → Fin K → Fin N → Fin N)
    (theta : Fin 1 → Fin Dp → Fin Din → Fin Dout → ℚ)
    (beta : Fin Din → Fin Dout → ℚ) : Tensor3 B Din N :=
  fun b i m => ∑ n, ∑ k,
    if j b k n = m then ∑ o, W theta beta (fun d => P b d m) i o * G b o n
    else 0

/-- Modelled from the spec: the kernel-level `flex_convolution` operation
(section 6), which validates the neighborhood indices (section 7: any index
outside `[0, N)` is rejected before computation) and then runs the gather
kernel. -/
def flex_convolution {B Din Dout Dp K N : ℕ} (F : Tensor3 B Din N)
    (P : Tensor3 B Dp N) (nb : ITensor3 B K N)
    (theta : Fin 1 → Fin Dp → Fin Din → Fin Dout → ℚ)
    (beta : Fin Din → Fin Dout → ℚ) : Option (Tensor3 B Dout N) :=
  if h : nbValidB N nb = true then
    some (flexConvCore F P (nbIdx nb h) theta beta)
  else
    none

/-- Modelled from the spec: the kernel-level `flex_convolution_transpose`
operation (section 6), with the same index validation as `flex_convolution`. -/
def flex_convolution_transpose {B Din Dout Dp K N : ℕ} (G : Tensor3 B Dout N)
    (P : Tensor3 B Dp N) (nb : ITensor3 B K N)
    (theta : Fin 1 → Fin Dp → Fin Din → Fin Dout → ℚ)
    (beta : Fin Din → Fin Dout → ℚ) : Option (Tensor3 B Din N) :=
  if h : nbValidB N nb = true then
    some (flexConvTransposeCore G P (nbIdx nb h) theta beta)
  else
    none

/-- The slot of the maximum entry of `v`, ties broken by the lowest slot
(spec section 4.4). -/
def argmaxSlot {K : ℕ} (v : Fin K → ℚ) (hK : 0 < K) : Fin K :=
  (List.finRange K).foldl (fun best k => if v best < v k then k else best)
    ⟨0, hK⟩

/-- Modelled from the spec: the Flex Pooling Kernel forward pass (section 4.4)
on a validated neighborhood table: per batch, channel and element, the maximum
feature value over the neighbor slots, together with the argmax slot. -/
def flexPoolCore {B D K N : ℕ} (F : Tensor3 B D N)
    (j : Fin B → Fin K → Fin N → Fin N) (hK : 0 < K) :
    Tensor3 B D N × (Fin B → Fin D → Fin N → Fin K) :=
  (fun b d n => F b d (j b (argmaxSlot (fun k => F b d (j b k n)) hK) n),
   fun b d n => argmaxSlot (fun k => F b d (j b k n)) hK)

/-- Modelled from the spec: the kernel-level `flex_pooling` operation
(section 6): it rejects an empty neighborhood (`K = 0`, section 4.4) and any
index outside `[0, N)` (section 7), and returns the pooled output together
with the argmax tensor. -/
def flex_pooling {B D K N : ℕ} (F : Tensor3 B D N) (nb : ITensor3 B K N) :
    Option (Tensor3 B D N × (Fin B → Fin D → Fin N → Fin K)) :=
  if h : 0 < K ∧ nbValidB N nb = true then
    some (flexPoolCore F (nbIdx nb h.2) h.1)
  else
    none

/-- The inner product of two rank-3 tensors of matching shape. -/
def inner3 {B D N : ℕ} (X Y : Tensor3 B D N) : ℚ :=
  ∑ b, ∑ d, ∑ n, X b d n * Y b d n

/-- A TensorFlow element dtype, as carried by the raw tensors a caller hands
to a layer before `ops.convert_to_tensor` runs. -/
inductive DType
  | float32
  | float64
  | int32
  | int64
deriving DecidableEq

/-- A raw rank-3 tensor as supplied by a caller: a dtype tag plus its values
(exact rationals). -/
structure Raw3 (B D N : ℕ) where
  dtype : DType
  data : Fin B → Fin D → Fin N → ℚ

/-- A raw rank-4 tensor `[B, D, 1, N]` as supplied by a caller using the
`expanded` data format. -/
structure Raw4 (B D N : ℕ) where
  dtype : DType
  data : Fin B → Fin D → Fin 1 → Fin N → ℚ

/-- Truncation of a rational toward zero, the rounding `tf.cast` applies when
converting to an integer dtype. -/
def truncQ (q : ℚ) : ℤ :=
  if q < 0 then -(Rat.floor (-q)) else Rat.floor q

/-- Conversion of one raw value to `tf.int32`: truncate toward zero and wrap
into the signed 32-bit range `[-2^31, 2^31)`. -/
def castInt32 (q : ℚ) : ℤ :=
  Int.bmod (truncQ q) (2 ^ 32)

/-- Conversion of one raw value to the layer's floating dtype
(`ops.convert_to_tensor(x, dtype=self.dtype)`), modelled value-exactly:
floating-point rounding is outside this embedding, so only the dtype tag is
consumed. -/
def castFloat (dt : DType) (q : ℚ) : ℚ := q

/-- `ops.convert_to_tensor(inputs[i], dtype=tf.int32)` on a raw rank-3
neighborhood tensor: the integer index tensor the kernel receives. -/
def kernelNb3 {B K N : ℕ} (nbr : Raw3 B K N) : ITensor3 B K N :=
  fun b k n => castInt32 (nbr.data b k n)

/-- `ops.convert_to_tensor(inputs[i], dtype=self.dtype)` on a raw rank-3
numeric tensor. -/
def kernelFloat3 {B D N : ℕ} (dt : DType) (r : Raw3 B D N) : Tensor3 B D N :=
  fun b d n => castFloat dt (r.data b d n)

/-- `ops.convert_to_tensor(inputs[i], dtype=tf.int32)` on a raw rank-4
neighborhood tensor. -/
def kernelNb4 {B K N : ℕ} (nbr : Raw4 B K N) :
    Fin B → Fin K → Fin 1 → Fin N → ℤ :=
  fun b k e n => castInt32 (nbr.data b k e n)

/-- `ops.convert_to_tensor(inputs[i], dtype=self.dtype)` on a raw rank-4
numeric tensor. -/
def kernelFloat4 {B D N : ℕ} (dt : DType) (r : Raw4 B D N) : Tensor4 B D N :=
  fun b d e n => castFloat dt (r.data b d e n)

/-- `_remove_dim(x, axis=2)`, i.e. `tf.squeeze(x, axis=2)`, on a rank-4
tensor. -/
def squeeze2 {B D N : ℕ} (x : Tensor4 B D N) : Tensor3 B D N :=
  fun b d n => x b d 0 n

/-- `tf.squeeze(x, axis=2)` on a rank-4 integer tensor. -/
def squeeze2I {B K N : ℕ} (x : Fin B → Fin K → Fin 1 → Fin N → ℤ) :
    ITensor3 B K N :=
  fun b k n => x b k 0 n

/-- `tf.expand_dims(y, axis=2)` on a rank-3 tensor. -/
def expandDims2 {B D N : ℕ} (y : Tensor3 B D N) : Tensor4 B D N :=
  fun b d _ n => y b d n

/-- Squeezing axis 2 of a raw rank-4 tensor, keeping its dtype tag. -/
def squeezeRaw {B D N : ℕ} (r : Raw4 B D N) : Raw3 B D N :=
  ⟨r.dtype, fun b d n => r.data b d 0 n⟩

/-- The `inputs` argument of `FlexConvolution.call` and
`FlexConvolutionTranspose.call` with rank-3 tensors: either a single tensor
(call-site misuse) or the list `[features, positions, neighborhoods]`. -/
inductive ConvInputs3 (B Dc Dp K N : ℕ)
  | single (t : Raw3 B Dc N)
  | list (f : Raw3 B Dc N) (p : Raw3 B Dp N) (nb : Raw3 B K N)

/-- The `inputs` argument of the convolution layers in the `expanded` data
format (rank-4 tensors). -/
inductive ConvInputs4 (B Dc Dp K N : ℕ)
  | single (t : Raw4 B Dc N)
  | list (f : Raw4 B Dc N) (p : Raw4 B Dp N) (nb : Raw4 B K N)

/-- The `inputs` argument of `FlexPooling.call` with rank-3 tensors. -/
inductive PoolInputs3 (B D K N : ℕ)
  | single (t : Raw3 B D N)
  | list (f : Raw3 B D N) (nb : Raw3 B K N)

/-- The `inputs` argument of `FlexPooling.call` in the `expanded` format. -/
inductive PoolInputs4 (B D K N : ℕ)
  | single (t : Raw4 B D N)
  | list (f : Raw4 B D N) (nb : Raw4 B K N)

/-- The error message raised by all three layers when `inputs` is not a
list. -/
def nonListMsg : String :=
  "A flexconv layer should be called on a list of inputs."

/-- The state of a built `FlexConvolution` (or `FlexConvolutionTranspose`)
layer: its dtype, the learned parameters created by `build` and the
configuration consumed by `call`. -/
structure FlexConvolutionLayer (Dp Din Dout : ℕ) where
  dtype : DType
  position_theta : Fin 1 → Fin Dp → Fin Din → Fin Dout → ℚ
  position_bias : Fin Din → Fin Dout → ℚ
  feature_bias : Option (Fin Dout → Fin 1 → ℚ)
  use_feature_bias : Bool
  activation : Option (ℚ → ℚ)

/-- `FlexConvolution.build`: creates `position_theta` of shape
`[1, Dp, Din, Dout]` and `position_bias` of shape `[Din, Dout]` from the
supplied initializers, and creates `feature_bias` of shape `[Dout, 1]` exactly
when `use_feature_bias` is set; otherwise `feature_bias` is `None`. -/
def FlexConvolution_build {Dp Din Dout : ℕ} (dt : DType)
    (use_feature_bias : Bool) (activation : Option (ℚ → ℚ))
    (kInit : Fin 1 → Fin Dp → Fin Din → Fin Dout → ℚ)
    (pbInit : Fin Din → Fin Dout → ℚ)
    (fbInit : Fin Dout → Fin 1 → ℚ) : FlexConvolutionLayer Dp Din Dout :=
  { dtype := dt
    position_theta := kInit
    position_bias := pbInit
    feature_bias := if use_feature_bias then some fbInit else none
    use_feature_bias := use_feature_bias
    activation := activation }

/-- The post-kernel feature-bias step of `call`:
`if self.use_feature_bias: y = tf.add(y, self.feature_bias)`, with the
`[Dout, 1]` bias broadcast over batch and elements. -/
def addFeatureBias {B Dout N : ℕ} (ub : Bool)
    (fb : Option (Fin Dout → Fin 1 → ℚ)) (y : Tensor3 B Dout N) :
    Tensor3 B Dout N :=
  if ub then fun b o n => y b o n + (fb.getD (fun _ _ => 0)) o 0 else y

/-- The post-kernel activation step of `call`:
`if self.activation is not None: y = self.activation(y)`. -/
def applyActivation {B Dout N : ℕ} (act : Option (ℚ → ℚ))
    (y : Tensor3 B Dout N) : Tensor3 B Dout N :=
  match act with
  | some f => fun b o n => f (y b o n)
  | none => y

/-- `FlexConvolution.call` with `data_format = 'simple'`: reject a non-list
`inputs`, convert the three tensors (`self.dtype` for features and positions,
`tf.int32` for neighborhoods), run the kernel, then add the feature bias and
apply the activation. -/
def FlexConvolution_call_simple {B Din Dout Dp K N : ℕ}
    (L : FlexConvolutionLayer Dp Din Dout)
    (inputs : ConvInputs3 B Din Dp K N) : Except String (Tensor3 B Dout N) :=
  match inputs with
  | .single _ => .error nonListMsg
  | .list fr pr nbr =>
    let features := kernelFloat3 L.dtype fr
    let positions := kernelFloat3 L.dtype pr
    let neighborhoods := kernelNb3 nbr
    match flex_convolution features positions neighborhoods
        L.position_theta L.position_bias with
    | none => .error "flex_convolution: neighborhood index out of range"
    | some y =>
      .ok (applyActivation L.activation
        (addFeatureBias L.use_feature_bias L.feature_bias y))

/-- `FlexConvolution.call` with `data_format = 'expanded'`: as in the simple
format, but axis 2 is stripped from every converted input before the kernel
runs, and a singleton axis 2 is re-inserted into the result. -/
def FlexConvolution_call_expanded {B Din Dout Dp K N : ℕ}
    (L : FlexConvolutionLayer Dp Din Dout)
    (inputs : ConvInputs4 B Din Dp K N) : Except String (Tensor4 B Dout N) :=
  match inputs with
  | .single _ => .error nonListMsg
  | .list fr pr nbr =>
    let features := squeeze2 (kernelFloat4 L.dtype fr)
    let positions := squeeze2 (kernelFloat4 L.dtype pr)
    let neighborhoods := squeeze2I (kernelNb4 nbr)
    match flex_convolution features positions neighborhoods
        L.position_theta L.position_bias with
    | none => .error "flex_convolution: neighborhood index out of range"
    | some y =>
      .ok (expandDims2 (applyActivation L.activation
        (addFeatureBias L.use_feature_bias L.feature_bias y)))

/-- `FlexConvolutionTranspose.call` with `data_format = 'simple'`.  The layer
is embedded with matching channel counts (`Din = Dout = D`), the only shapes
under which the spec's adjoint signature composes with the inherited `build`;
the body transcribes the same steps as `FlexConvolution.call` with the
transpose kernel in place of the convolution kernel. -/
def FlexConvolutionTranspose_call_simple {B D Dp K N : ℕ}
    (L : FlexConvolutionLayer Dp D D)
    (inputs : ConvInputs3 B D Dp K N) : Except String (Tensor3 B D N) :=
  match inputs with
  | .single _ => .error nonListMsg
  | .list fr pr nbr =>
    let features := kernelFloat3 L.dtype fr
    let positions := kernelFloat3 L.dtype pr
    let neighborhoods := kernelNb3 nbr
    match flex_convolution_transpose features positions neighborhoods
        L.position_theta L.position_bias with
    | none => .error "flex_convolution_transpose: neighborhood index out of range"
    | some y =>
      .ok (applyActivation L.activation
        (addFeatureBias L.use_feature_bias L.feature_bias y))

/-- `FlexConvolutionTranspose.call` with `data_format = 'expanded'`. -/
def FlexConvolutionTranspose_call_expanded {B D Dp K N : ℕ}
    (L : FlexConvolutionLayer Dp D D)
    (inputs : ConvInputs4 B D Dp K N) : Except String (Tensor4 B D N) :=
  match inputs with
  | .single _ => .error nonListMsg
  | .list fr pr nbr =>
    let features := squeeze2 (kernelFloat4 L.dtype fr)
    let positions := squeeze2 (kernelFloat4 L.dtype pr)
    let neighborhoods := squeeze2I (kernelNb4 nbr)
    match flex_convolution_transpose features positions neighborhoods
        L.position_theta L.position_bias with
    | none => .error "flex_convolution_transpose: neighborhood index out of range"
    | some y =>
      .ok (expandDims2 (applyActivation L.activation
        (addFeatureBias L.use_feature_bias L.feature_bias y)))

/-- A value returned by a layer `call` in the dynamically-typed host language:
either a single tensor or a (tensor, argmax) pair. -/
inductive TFValue (α β : Type)
  | single (y : α)
  | pair (y : α) (am : β)

/-- Whether a returned value is a (tensor, argmax) pair. -/
def TFValue.isPair {α β : Type} : TFValue α β → Bool
  | .pair _ _ => true
  | .single _ => false

/-- Whether an `Except` result is a success. -/
def isOkB {ε α : Type} : Except ε α → Bool
  | .ok _ => true
  | .error _ => false

/-- Whether a layer call succeeded with a (tensor, argmax) pair as its
value. -/
def returnsPair {ε α β : Type} : Except ε (TFValue α β) → Bool
  | .ok v => v.isPair
  | .error _ => false

/-- `FlexPooling.call` with `data_format = 'simple'`: reject a non-list
`inputs`, convert features to `self.dtype` and neighborhoods to `tf.int32`,
run the pooling kernel, and return only the pooled tensor
(`y, _ = _flex_pooling(features, neighborhoods); return y`). -/
def FlexPooling_call_simple {B D K N : ℕ} (dt : DType)
    (inputs : PoolInputs3 B D K N) :
    Except String (TFValue (Tensor3 B D N) (Fin B → Fin D → Fin N → Fin K)) :=
  match inputs with
  | .single _ => .error nonListMsg
  | .list fr nbr =>
    let features := kernelFloat3 dt fr
    let neighborhoods := kernelNb3 nbr
    match flex_pooling features neighborhoods with
    | none => .error "flex_pooling: invalid neighborhood"
    | some yp => .ok (.single yp.1)

/-- `FlexPooling.call` with `data_format = 'expanded'`. -/
def FlexPooling_call_expanded {B D K N : ℕ} (dt : DType)
    (inputs : PoolInputs4 B D K N) :
    Except String (TFValue (Tensor4 B D N) (Fin B → Fin D → Fin N → Fin K)) :=
  match inputs with
  | .single _ => .error nonListMsg
  | .list fr nbr =>
    let features := squeeze2 (kernelFloat4 dt fr)
    let neighborhoods := squeeze2I (kernelNb4 nbr)
    match flex_pooling features neighborhoods with
    | none => .error "flex_pooling: invalid neighborhood"
    | some yp => .ok (.single (expandDims2 yp.1))

/-- The module-level public `flex_pooling` function of `layers.py`: it
constructs a `FlexPooling` layer (default dtype `float32`) and applies it to
`[features, neighborhoods]`. -/
def layers_flex_pooling {B D K N : ℕ} (fr : Raw3 B D N) (nbr : Raw3 B K N) :
    Except String (TFValue (Tensor3 B D N) (Fin B → Fin D → Fin N → Fin K)) :=
  FlexPooling_call_simple DType.float32 (.list fr nbr)

/-- Mapping the rank-4 `inputs` of a convolution layer to the rank-3 inputs
obtained by stripping axis 2 of every tensor. -/
def squeezeConvInputs {B Dc Dp K N : ℕ} :
    ConvInputs4 B Dc Dp K N → ConvInputs3 B Dc Dp K N
  | .single t => .single (squeezeRaw t)
  | .list f p nb => .list (squeezeRaw f) (squeezeRaw p) (squeezeRaw nb)

/-- Mapping the rank-4 `inputs` of a pooling layer to the rank-3 inputs
obtained by stripping axis 2 of every tensor. -/
def squeezePoolInputs {B D K N : ℕ} :
    PoolInputs4 B D K N → PoolInputs3 B D K N
  | .single t => .single (squeezeRaw t)
  | .list f nb => .list (squeezeRaw f) (squeezeRaw nb)

/-- `FlexConvolution.call` as a state transformer on the layer object: the
Python body reads `self.dtype`, `self.position_theta`, `self.position_bias`,
`self.feature_bias`, `self.use_feature_bias` and `self.activation` and assigns
no attribute, so the layer state is returned unchanged alongside the
result. -/
def FlexConvolution_callST {B Din Dout Dp K N : ℕ}
    (L : FlexConvolutionLayer Dp Din Dout)
    (inputs : ConvInputs3 B Din Dp K N) :
    FlexConvolutionLayer Dp Din Dout × Except String (Tensor3 B Dout N) :=
  (L, FlexConvolution_call_simple L inputs)

/-- `FlexConvolutionTranspose.call` as a state transformer on the layer
object; like `FlexConvolution.call` it assigns no attribute. -/
def FlexConvolutionTranspose_callST {B D Dp K N : ℕ}
    (L : FlexConvolutionLayer Dp D D)
    (inputs : ConvInputs3 B D Dp K N) :
    FlexConvolutionLayer Dp D D × Except String (Tensor3 B D N) :=
  (L, FlexConvolutionTranspose_call_simple L inputs)

/-- `FlexPooling.compute_output_shape`: the output shape is the input shape,
unchanged. -/
def FlexPooling_compute_output_shape (s : List ℕ) : List ℕ := s

/-- `FlexConvolution.compute_output_shape` (inherited unchanged by
`FlexConvolutionTranspose`): dimension 1 of the input shape is replaced by
`self.filters`. -/
def FlexConvolution_compute_output_shape (filters : ℕ) (s : List ℕ) :
    List ℕ :=
  s.set 1 filters

/-- The shape `[B, D, N]` of a rank-3 tensor, read off its type indices. -/
def shape3 {B D N : ℕ} (_ : Tensor3 B D N) : List ℕ := [B, D, N]

/-- Re-inserting the singleton axis 2 into the tensor component of a returned
value. -/
def expandTFValue {B D N : ℕ} {β : Type} :
    TFValue (Tensor3 B D N) β → TFValue (Tensor4 B D N) β
  | .single y => .single (expandDims2 y)
  | .pair y am => .pair (expandDims2 y) am

/-- A concrete `1 × 1 × 1` features tensor used as an evaluation point. -/
def exF : Tensor3 1 1 1 := fun _ _ _ => 2

/-- A concrete `1 × 1 × 1` positions tensor. -/
def exP : Tensor3 1 1 1 := fun _ _ _ => 3

/-- A concrete `1 × 1 × 1` gradient-like tensor. -/
def exG : Tensor3 1 1 1 := fun _ _ _ => 5

/-- A concrete valid neighborhood tensor (every index `0`). -/
def exNb : ITensor3 1 1 1 := fun _ _ _ => 0

/-- A concrete invalid neighborhood tensor: every index equals `N = 1`, one
past the last valid element. -/
def exNbBad : ITensor3 1 1 1 := fun _ _ _ => 1

/-- A concrete WeightBasis parameter of shape `[1, 1, 1, 1]`. -/
def exTheta : Fin 1 → Fin 1 → Fin 1 → Fin 1 → ℚ := fun _ _ _ _ => 7

/-- A concrete WeightBias parameter of shape `[1, 1]`. -/
def exBeta : Fin 1 → Fin 1 → ℚ := fun _ _ => 1

/-- A concrete raw features tensor. -/
def exFr : Raw3 1 1 1 := ⟨DType.float32, fun _ _ _ => 2⟩

/-- A concrete raw positions tensor. -/
def exPr : Raw3 1 1 1 := ⟨DType.float32, fun _ _ _ => 3⟩

/-- A concrete raw neighborhood tensor (every index `0`, dtype `int64` to
exercise the conversion). -/
def exNbr : Raw3 1 1 1 := ⟨DType.int64, fun _ _ _ => 0⟩

/-- A concrete raw features tensor over two elements, with a strict maximum at
element 1. -/
def exFr2 : Raw3 1 1 2 := ⟨DType.float32, fun _ _ n => if n = 0 then 2 else 5⟩

/-- A concrete raw neighborhood tensor over two elements with two slots: slot
`k` of every element points at element `k`. -/
def exNbr2 : Raw3 1 2 2 := ⟨DType.int32, fun _ k _ => (k : ℤ)⟩

/-- A concrete built convolution layer with feature bias `11` and no
activation. -/
def exLayer : FlexConvolutionLayer 1 1 1 :=
  FlexConvolution_build DType.float32 true none exTheta exBeta (fun _ _ => 11)

/-- A concrete built convolution layer without feature bias and without
activation. -/
def exLayerNoBias : FlexConvolutionLayer 1 1 1 :=
  FlexConvolution_build DType.float32 false none exTheta exBeta (fun _ _ => 11)

/-- A concrete built convolution layer with feature bias `11` and a squaring
activation. -/
def exLayerAct : FlexConvolutionLayer 1 1 1 :=
  FlexConvolution_build DType.float32 true (some fun q => q * q) exTheta
    exBeta (fun _ _ => 11)

/-- A concrete validated neighborhood table over two elements with two slots:
slot `k` of every element points at element `k`. -/
def exJ2 : Fin 1 → Fin 2 → Fin 2 → Fin 2 := fun _ k _ => k

theorem squeeze2_kernelFloat4 {B D N : ℕ} (dt : DType) (r : Raw4 B D N) :
    squeeze2 (kernelFloat4 dt r) = kernelFloat3 dt (squeezeRaw r) := rfl

theorem squeeze2I_kernelNb4 {B K N : ℕ} (r : Raw4 B K N) :
    squeeze2I (kernelNb4 r) = kernelNb3 (squeezeRaw r) := rfl

theorem flex_convolution_some {B Din Dout Dp K N : ℕ} (F : Tensor3 B Din N)
    (P : Tensor3 B Dp N) (nb : ITensor3 B K N)
    (theta : Fin 1 → Fin Dp → Fin Din → Fin Dout → ℚ)
    (beta : Fin Din → Fin Dout → ℚ) (h : nbValidB N nb = true) :
    flex_convolution F P nb theta beta =
      some (flexConvCore F P (nbIdx nb h) theta beta) :=
  dif_pos h

theorem flex_convolution_transpose_some {B Din Dout Dp K N : ℕ}
    (G : Tensor3 B Dout N) (P : Tensor3 B Dp N) (nb : ITensor3 B K N)
    (theta : Fin 1 → Fin Dp → Fin Din → Fin Dout → ℚ)
    (beta : Fin Din → Fin Dout → ℚ) (h : nbValidB N nb = true) :
    flex_convolution_transpose G P nb theta beta =
      some (flexConvTransposeCore G P (nbIdx nb h) theta beta) :=
  dif_pos h

theorem flex_pooling_some {B D K N : ℕ} (F : Tensor3 B D N)
    (nb : ITensor3 B K N) (hK : 0 < K) (h : nbValidB N nb = true) :
    flex_pooling F nb = some (flexPoolCore F (nbIdx nb h) hK) :=
  dif_pos ⟨hK, h⟩

/-- C7: for every call to any of the three layers (in either data format)
whose `inputs` argument is a single tensor rather than a list, the call
returns the descriptive non-list error, independently of the tensor and of
the layer state. -/
theorem non_list_inputs_rejected :
    (∀ (B Din Dout Dp K N : ℕ) (L : FlexConvolutionLayer Dp Din Dout)
        (t : Raw3 B Din N),
      FlexConvolution_call_simple (K := K) (N := N) L (.single t) =
        .error nonListMsg) ∧
    (∀ (B Din Dout Dp K N : ℕ) (L : FlexConvolutionLayer Dp Din Dout)
        (t : Raw4 B Din N),
      FlexConvolution_call_expanded (K := K) (N := N) L (.single t) =
        .error nonListMsg) ∧
    (∀ (B D Dp K N : ℕ) (L : FlexConvolutionLayer Dp D D) (t : Raw3 B D N),
      FlexConvolutionTranspose_call_simple (K := K) (N := N) L (.single t) =
        .error nonListMsg) ∧
    (∀ (B D Dp K N : ℕ) (L : FlexConvolutionLayer Dp D D) (t : Raw4 B D N),
      FlexConvolutionTranspose_call_expanded (K := K) (N := N) L (.single t) =
        .error nonListMsg) ∧
    (∀ (B D K N : ℕ) (dt : DType) (t : Raw3 B D N),
      FlexPooling_call_simple (K := K) dt (.single t) = .error nonListMsg) ∧
    (∀ (B D K N : ℕ) (dt : DType) (t : Raw4 B D N),
      FlexPooling_call_expanded (K := K) dt (.single t) = .error nonListMsg) :=
  ⟨fun _ _ _ _ _ _ _ _ => rfl, fun _ _ _ _ _ _ _ _ => rfl,
   fun _ _ _ _ _ _ _ => rfl, fun _ _ _ _ _ _ _ => rfl,
   fun _ _ _ _ _ _ => rfl, fun _ _ _ _ _ _ => rfl⟩

/-- C4: in the `expanded` data format each operation is the `simple`-format
pipeline conjugated by the layout adapter: axis 2 is stripped from every
(converted) input before the kernel is invoked and a singleton axis 2 is
re-inserted into the result, so the kernel only ever sees the 3-axis
canonical layout; in the `simple` format the tensors keep their rank. -/
theorem expanded_format_squeezes_inputs :
    (∀ (B Din Dout Dp K N : ℕ) (L : FlexConvolutionLayer Dp Din Dout)
        (inputs : ConvInputs4 B Din Dp K N),
      FlexConvolution_call_expanded L inputs =
        Except.map expandDims2
          (FlexConvolution_call_simple L (squeezeConvInputs inputs))) ∧
    (∀ (B D Dp K N : ℕ) (L : FlexConvolutionLayer Dp D D)
        (inputs : ConvInputs4 B D Dp K N),
      FlexConvolutionTranspose_call_expanded L inputs =
        Except.map expandDims2
          (FlexConvolutionTranspose_call_simple L (squeezeConvInputs inputs))) ∧
    (∀ (B D K N : ℕ) (dt : DType) (inputs : PoolInputs4 B D K N),
      FlexPooling_call_expanded dt inputs =
        Except.map expandTFValue
          (FlexPooling_call_simple dt (squeezePoolInputs inputs))) := by
  refine ⟨?_, ?_, ?_⟩
  · intro B Din Dout Dp K N L inputs
    cases inputs with
    | single t => rfl
    | list fr pr nbr =>
      simp only [FlexConvolution_call_expanded, FlexConvolution_call_simple,
        squeezeConvInputs, squeeze2_kernelFloat4, squeeze2I_kernelNb4]
      rcases hres : flex_convolution (kernelFloat3 L.dtype (squeezeRaw fr))
          (kernelFloat3 L.dtype (squeezeRaw pr)) (kernelNb3 (squeezeRaw nbr))
          L.position_theta L.position_bias with _ | y <;>
        simp [hres, Except.map, expandTFValue]
  · intro B D Dp K N L inputs
    cases inputs with
    | single t => rfl
    | list fr pr nbr =>
      simp only [FlexConvolutionTranspose_call_expanded,
        FlexConvolutionTranspose_call_simple, squeezeConvInputs,
        squeeze2_kernelFloat4, squeeze2I_kernelNb4]
      rcases hres : flex_convolution_transpose
          (kernelFloat3 L.dtype (squeezeRaw fr))
          (kernelFloat3 L.dtype (squeezeRaw pr)) (kernelNb3 (squeezeRaw nbr))
          L.position_theta L.position_bias with _ | y <;>
        simp [hres, Except.map, expandTFValue]
  · intro B D K N dt inputs
    cases inputs with
    | single t => rfl
    | list fr nbr =>
      simp only [FlexPooling_call_expanded, FlexPooling_call_simple,
        squeezePoolInputs, squeeze2_kernelFloat4, squeeze2I_kernelNb4]
      rcases hres : flex_pooling (kernelFloat3 dt (squeezeRaw fr))
          (kernelNb3 (squeezeRaw nbr)) with _ | yp <;>
        simp [hres, Except.map, expandTFValue]

/-- C9: no layer call mutates the learned parameters: the state-transformer
views of `FlexConvolution.call` and `FlexConvolutionTranspose.call` return the
layer with `position_theta`, `position_bias` and `feature_bias` (and the rest
of the state) unchanged; `FlexPooling.call` creates no parameters at all. -/
theorem call_preserves_parameters :
    (∀ (B Din Dout Dp K N : ℕ) (L : FlexConvolutionLayer Dp Din Dout)
        (inputs : ConvInputs3 B Din Dp K N),
      (FlexConvolution_callST L inputs).1.position_theta = L.position_theta ∧
      (FlexConvolution_callST L inputs).1.position_bias = L.position_bias ∧
      (FlexConvolution_callST L inputs).1.feature_bias = L.feature_bias ∧
      (FlexConvolution_callST L inputs).1 = L) ∧
    (∀ (B D Dp K N : ℕ) (L : FlexConvolutionLayer Dp D D)
        (inputs : ConvInputs3 B D Dp K N),
      (FlexConvolutionTranspose_callST L inputs).1.position_theta =
        L.position_theta ∧
      (FlexConvolutionTranspose_callST L inputs).1.position_bias =
        L.position_bias ∧
      (FlexConvolutionTranspose_callST L inputs).1.feature_bias =
        L.feature_bias ∧
      (FlexConvolutionTranspose_callST L inputs).1 = L) :=
  ⟨fun _ _ _ _ _ _ _ _ => ⟨rfl, rfl, rfl, rfl⟩,
   fun _ _ _ _ _ _ _ => ⟨rfl, rfl, rfl, rfl⟩⟩

/-- C8: `compute_output_shape` of the convolution layer (inherited unchanged
by the transpose layer) replaces the channel dimension of `[B, D, N]` with the
filter count, `compute_output_shape` of the pooling layer returns the input
shape unchanged, and at kernel level the convolution produces a `[B, Dout, N]`
tensor while pooling preserves the `[B, D, N]` shape of its features: no
element-count reduction occurs. -/
theorem output_shapes :
    (∀ (B D N filters : ℕ),
      FlexConvolution_compute_output_shape filters [B, D, N] =
        [B, filters, N]) ∧
    (∀ s : List ℕ, FlexPooling_compute_output_shape s = s) ∧
    (∀ (B Din Dout Dp K N : ℕ) (F : Tensor3 B Din N) (P : Tensor3 B Dp N)
        (j : Fin B → Fin K → Fin N → Fin N)
        (theta : Fin 1 → Fin Dp → Fin Din → Fin Dout → ℚ)
        (beta : Fin Din → Fin Dout → ℚ),
      shape3 (flexConvCore F P j theta beta) = [B, Dout, N]) ∧
    (∀ (B D K N : ℕ) (F : Tensor3 B D N)
        (j : Fin B → Fin (K + 1) → Fin N → Fin N),
      shape3 (flexPoolCore F j (Nat.succ_pos K)).1 = shape3 F) :=
  ⟨fun _ _ _ _ => rfl, fun _ => rfl, fun _ _ _ _ _ _ _ _ _ _ _ => rfl,
   fun _ _ _ _ _ _ => rfl⟩

/-- C3: whenever some neighborhood entry lies outside `[0, N)`, each of the
three kernel operations rejects the call, returning no output at all (the
index is neither clamped nor wrapped). -/
theorem neighborhood_out_of_range_rejected {B Din Dout Dp K N D : ℕ}
    (F : Tensor3 B Din N) (G : Tensor3 B Dout N) (Fp : Tensor3 B D N)
    (P : Tensor3 B Dp N) (nb : ITensor3 B K N)
    (theta : Fin 1 → Fin Dp → Fin Din → Fin Dout → ℚ)
    (beta : Fin Din → Fin Dout → ℚ) (b0 : Fin B) (k0 : Fin K) (n0 : Fin N)
    (h : ¬(0 ≤ nb b0 k0 n0 ∧ nb b0 k0 n0 < N)) :
    flex_convolution F P nb theta beta = none ∧
    flex_convolution_transpose G P nb theta beta = none ∧
    flex_pooling Fp nb = none := by
  have hv : nbValidB N nb = false :=
    decide_eq_false (fun hall => h (hall b0 k0 n0))
  refine ⟨?_, ?_, ?_⟩
  · simp [flex_convolution, hv]
  · simp [flex_convolution_transpose, hv]
  · simp [flex_pooling, hv]

/-- Witness for C3 at a concrete input: with `N = 1` and every neighborhood
entry equal to `1` (one past the last valid index) all three operations
reject the call. -/
theorem neighborhood_out_of_range_rejected_witness :
    flex_convolution exF exP exNbBad exTheta exBeta = none ∧
    flex_convolution_transpose exG exP exNbBad exTheta exBeta = none ∧
    flex_pooling exF exNbBad = none :=
  neighborhood_out_of_range_rejected exF exG exF exP exNbBad exTheta exBeta
    0 0 0 (by decide)

theorem castInt32_range (q : ℚ) :
    -(2 ^ 31) ≤ castInt32 q ∧ castInt32 q < 2 ^ 31 := by
  unfold castInt32
  have h1 : 0 ≤ truncQ q % ((2 ^ 32 : ℕ) : ℤ) :=
    Int.emod_nonneg _ (by norm_num)
  have h2 : truncQ q % ((2 ^ 32 : ℕ) : ℤ) < ((2 ^ 32 : ℕ) : ℤ) :=
    Int.emod_lt_of_pos _ (by norm_num)
  rw [Int.bmod_def]
  have e : ((2 ^ 32 : ℕ) : ℤ) = 4294967296 := by norm_num
  rw [e] at h1 h2 ⊢
  split <;> omega

/-- C5: in the convolution and convolution-transpose calls the kernel output
is post-processed by first adding the feature bias (when enabled) and then
applying the activation: the result is `activation(kernel_output +
feature_bias)`. -/
theorem bias_then_activation_order :
    (∀ (B Din Dout Dp K N : ℕ) (L : FlexConvolutionLayer Dp Din Dout)
        (fr : Raw3 B Din N) (pr : Raw3 B Dp N) (nbr : Raw3 B K N)
        (fbv : Fin Dout → Fin 1 → ℚ) (f : ℚ → ℚ) (y : Tensor3 B Dout N),
      L.use_feature_bias = true → L.feature_bias = some fbv →
      L.activation = some f →
      flex_convolution (kernelFloat3 L.dtype fr) (kernelFloat3 L.dtype pr)
          (kernelNb3 nbr) L.position_theta L.position_bias = some y →
      FlexConvolution_call_simple L (.list fr pr nbr) =
        .ok (fun b o n => f (y b o n + fbv o 0))) ∧
    (∀ (B D Dp K N : ℕ) (L : FlexConvolutionLayer Dp D D)
        (fr : Raw3 B D N) (pr : Raw3 B Dp N) (nbr : Raw3 B K N)
        (fbv : Fin D → Fin 1 → ℚ) (f : ℚ → ℚ) (y : Tensor3 B D N),
      L.use_feature_bias = true → L.feature_bias = some fbv →
      L.activation = some f →
      flex_convolution_transpose (kernelFloat3 L.dtype fr)
          (kernelFloat3 L.dtype pr) (kernelNb3 nbr) L.position_theta
          L.position_bias = some y →
      FlexConvolutionTranspose_call_simple L (.list fr pr nbr) =
        .ok (fun b o n => f (y b o n + fbv o 0))) := by
  constructor
  · intro B Din Dout Dp K N L fr pr nbr fbv f y hub hfb hact hker
    simp only [FlexConvolution_call_simple]
    rw [hker]
    simp [addFeatureBias, applyActivation, hub, hfb, hact]
  · intro B D Dp K N L fr pr nbr fbv f y hub hfb hact hker
    simp only [FlexConvolutionTranspose_call_simple]
    rw [hker]
    simp [addFeatureBias, applyActivation, hub, hfb, hact]

/-- Witness for C5 at a concrete input: a layer with feature bias `11` and a
squaring activation produces `(kernel_output + 11)^2`, for both the
convolution and the transpose. -/
theorem bias_then_activation_order_witness :
    FlexConvolution_call_simple exLayerAct
        (ConvInputs3.list exFr exPr exNbr) =
      .ok (fun b o n =>
        (fun q => q * q)
          (flexConvCore (kernelFloat3 exLayerAct.dtype exFr)
            (kernelFloat3 exLayerAct.dtype exPr)
            (nbIdx (kernelNb3 exNbr) (by decide)) exLayerAct.position_theta
            exLayerAct.position_bias b o n + 11)) ∧
    FlexConvolutionTranspose_call_simple exLayerAct
        (ConvInputs3.list exFr exPr exNbr) =
      .ok (fun b o n =>
        (fun q => q * q)
          (flexConvTransposeCore (kernelFloat3 exLayerAct.dtype exFr)
            (kernelFloat3 exLayerAct.dtype exPr)
            (nbIdx (kernelNb3 exNbr) (by decide)) exLayerAct.position_theta
            exLayerAct.position_bias b o n + 11)) :=
  ⟨bias_then_activation_order.1 1 1 1 1 1 1 exLayerAct exFr exPr exNbr
      (fun _ _ => 11) (fun q => q * q) _ rfl rfl rfl
      (flex_convolution_some _ _ _ _ _ (by decide)),
   bias_then_activation_order.2 1 1 1 1 1 exLayerAct exFr exPr exNbr
      (fun _ _ => 11) (fun q => q * q) _ rfl rfl rfl
      (flex_convolution_transpose_some _ _ _ _ _ (by decide))⟩

/-- C6: `build` creates the `[Dout, 1]` FeatureBias exactly when
`use_feature_bias` is enabled (otherwise the field is `None`), and `call`
adds it to the kernel output exactly when `use_feature_bias` is enabled
(shown here with no activation, so the bias step is the whole
post-processing). -/
theorem feature_bias_iff_enabled :
    (∀ (Dp Din Dout : ℕ) (dt : DType) (act : Option (ℚ → ℚ))
        (kInit : Fin 1 → Fin Dp → Fin Din → Fin Dout → ℚ)
        (pbInit : Fin Din → Fin Dout → ℚ) (fbInit : Fin Dout → Fin 1 → ℚ),
      (FlexConvolution_build dt true act kInit pbInit fbInit).feature_bias =
        some fbInit) ∧
    (∀ (Dp Din Dout : ℕ) (dt : DType) (act : Option (ℚ → ℚ))
        (kInit : Fin 1 → Fin Dp → Fin Din → Fin Dout → ℚ)
        (pbInit : Fin Din → Fin Dout → ℚ) (fbInit : Fin Dout → Fin 1 → ℚ),
      (FlexConvolution_build dt false act kInit pbInit fbInit).feature_bias =
        none) ∧
    (∀ (B Din Dout Dp K N : ℕ) (L : FlexConvolutionLayer Dp Din Dout)
        (fr : Raw3 B Din N) (pr : Raw3 B Dp N) (nbr : Raw3 B K N)
        (fbv : Fin Dout → Fin 1 → ℚ) (y : Tensor3 B Dout N),
      L.use_feature_bias = true → L.feature_bias = some fbv →
      L.activation = none →
      flex_convolution (kernelFloat3 L.dtype fr) (kernelFloat3 L.dtype pr)
          (kernelNb3 nbr) L.position_theta L.position_bias = some y →
      FlexConvolution_call_simple L (.list fr pr nbr) =
        .ok (fun b o n => y b o n + fbv o 0)) ∧
    (∀ (B Din Dout Dp K N : ℕ) (L : FlexConvolutionLayer Dp Din Dout)
        (fr : Raw3 B Din N) (pr : Raw3 B Dp N) (nbr : Raw3 B K N)
        (y : Tensor3 B Dout N),
      L.use_feature_bias = false → L.activation = none →
      flex_convolution (kernelFloat3 L.dtype fr) (kernelFloat3 L.dtype pr)
          (kernelNb3 nbr) L.position_theta L.position_bias = some y →
      FlexConvolution_call_simple L (.list fr pr nbr) = .ok y) := by
  refine ⟨fun _ _ _ _ _ _ _ _ => rfl, fun _ _ _ _ _ _ _ _ => rfl, ?_, ?_⟩
  · intro B Din Dout Dp K N L fr pr nbr fbv y hub hfb hact hker
    simp only [FlexConvolution_call_simple]
    rw [hker]
    simp [addFeatureBias, applyActivation, hub, hfb, hact]
  · intro B Din Dout Dp K N L fr pr nbr y hub hact hker
    simp only [FlexConvolution_call_simple]
    rw [hker]
    simp [addFeatureBias, applyActivation, hub, hact]

/-- Witness for C6 at concrete inputs: the layer built with the flag enabled
holds the bias and adds it; the layer built with the flag disabled holds
`None` and returns the kernel output unchanged. -/
theorem feature_bias_iff_enabled_witness :
    exLayer.feature_bias = some (fun _ _ => 11) ∧
    exLayerNoBias.feature_bias = none ∧
    FlexConvolution_call_simple exLayer (ConvInputs3.list exFr exPr exNbr) =
      .ok (fun b o n =>
        flexConvCore (kernelFloat3 exLayer.dtype exFr)
          (kernelFloat3 exLayer.dtype exPr)
          (nbIdx (kernelNb3 exNbr) (by decide)) exLayer.position_theta
          exLayer.position_bias b o n + 11) ∧
    FlexConvolution_call_simple exLayerNoBias
        (ConvInputs3.list exFr exPr exNbr) =
      .ok (flexConvCore (kernelFloat3 exLayerNoBias.dtype exFr)
        (kernelFloat3 exLayerNoBias.dtype exPr)
        (nbIdx (kernelNb3 exNbr) (by decide)) exLayerNoBias.position_theta
        exLayerNoBias.position_bias) :=
  ⟨feature_bias_iff_enabled.1 1 1 1 DType.float32 none exTheta exBeta
      (fun _ _ => 11),
   feature_bias_iff_enabled.2.1 1 1 1 DType.float32 none exTheta exBeta
      (fun _ _ => 11),
   feature_bias_iff_enabled.2.2.1 1 1 1 1 1 1 exLayer exFr exPr exNbr
      (fun _ _ => 11) _ rfl rfl rfl
      (flex_convolution_some _ _ _ _ _ (by decide)),
   feature_bias_iff_enabled.2.2.2 1 1 1 1 1 1 exLayerNoBias exFr exPr exNbr
      _ rfl rfl (flex_convolution_some _ _ _ _ _ (by decide))⟩

/-- C10: the neighborhood input of every call is converted to a signed 32-bit
integer tensor before the kernel runs — the values the kernels receive always
lie in `[-2^31, 2^31)` — and the result of each call depends on the supplied
raw tensors only through their values, never through the dtype they were
supplied with, because every input is converted (features and positions to
the layer's floating dtype, neighborhoods to int32) before use. -/
theorem kernel_input_dtypes :
    (∀ (B K N : ℕ) (nbr : Raw3 B K N) (b : Fin B) (k : Fin K) (n : Fin N),
      -(2 ^ 31) ≤ kernelNb3 nbr b k n ∧ kernelNb3 nbr b k n < 2 ^ 31) ∧
    (∀ (B Din Dout Dp K N : ℕ) (L : FlexConvolutionLayer Dp Din Dout)
        (d1 d1' d2 d2' d3 d3' : DType) (fd : Fin B → Fin Din → Fin N → ℚ)
        (pd : Fin B → Fin Dp → Fin N → ℚ) (nd : Fin B → Fin K → Fin N → ℚ),
      FlexConvolution_call_simple L (.list ⟨d1, fd⟩ ⟨d2, pd⟩ ⟨d3, nd⟩) =
        FlexConvolution_call_simple L (.list ⟨d1', fd⟩ ⟨d2', pd⟩ ⟨d3', nd⟩)) ∧
    (∀ (B D Dp K N : ℕ) (L : FlexConvolutionLayer Dp D D)
        (d1 d1' d2 d2' d3 d3' : DType) (fd : Fin B → Fin D → Fin N → ℚ)
        (pd : Fin B → Fin Dp → Fin N → ℚ) (nd : Fin B → Fin K → Fin N → ℚ),
      FlexConvolutionTranspose_call_simple L
          (.list ⟨d1, fd⟩ ⟨d2, pd⟩ ⟨d3, nd⟩) =
        FlexConvolutionTranspose_call_simple L
          (.list ⟨d1', fd⟩ ⟨d2', pd⟩ ⟨d3', nd⟩)) ∧
    (∀ (B D K N : ℕ) (dt : DType) (d1 d1' d3 d3' : DType)
        (fd : Fin B → Fin D → Fin N → ℚ) (nd : Fin B → Fin K → Fin N → ℚ),
      FlexPooling_call_simple dt (.list ⟨d1, fd⟩ ⟨d3, nd⟩) =
        FlexPooling_call_simple dt (.list ⟨d1', fd⟩ ⟨d3', nd⟩)) :=
  ⟨fun _ _ _ nbr b k n => castInt32_range (nbr.data b k n),
   fun _ _ _ _ _ _ _ _ _ _ _ _ _ _ _ _ => rfl,
   fun _ _ _ _ _ _ _ _ _ _ _ _ _ _ _ => rfl,
   fun _ _ _ _ _ _ _ _ _ _ _ => rfl⟩

theorem sum_reorder_onki {α β γ δ : Type} [Fintype α] [Fintype β] [Fintype γ]
    [Fintype δ] (f : α → β → γ → δ → ℚ) :
    (∑ o, ∑ n, ∑ k, ∑ i, f o n k i) = ∑ n, ∑ k, ∑ i, ∑ o, f o n k i := by
  rw [Finset.sum_comm]
  refine Finset.sum_congr rfl fun n _ => ?_
  rw [Finset.sum_comm]
  refine Finset.sum_congr rfl fun k _ => ?_
  rw [Finset.sum_comm]

theorem sum_reorder_imnk {α β γ δ : Type} [Fintype α] [Fintype β] [Fintype γ]
    [Fintype δ] (g : α → β → γ → δ → ℚ) :
    (∑ i, ∑ m, ∑ n, ∑ k, g i m n k) = ∑ i, ∑ n, ∑ k, ∑ m, g i m n k := by
  refine Finset.sum_congr rfl fun i _ => ?_
  rw [Finset.sum_comm]
  refine Finset.sum_congr rfl fun n _ => ?_
  rw [Finset.sum_comm]

theorem sum_reorder_ink {α β γ : Type} [Fintype α] [Fintype β] [Fintype γ]
    (h : α → β → γ → ℚ) :
    (∑ i, ∑ n, ∑ k, h i n k) = ∑ n, ∑ k, ∑ i, h i n k := by
  rw [Finset.sum_comm]
  refine Finset.sum_congr rfl fun n _ => ?_
  rw [Finset.sum_comm]

theorem inner3_conv_transpose {B Din Dout Dp K N : ℕ} (F : Tensor3 B Din N)
    (G : Tensor3 B Dout N) (P : Tensor3 B Dp N)
    (j : Fin B → Fin K → Fin N → Fin N)
    (theta : Fin 1 → Fin Dp → Fin Din → Fin Dout → ℚ)
    (beta : Fin Din → Fin Dout → ℚ) :
    inner3 (flexConvCore F P j theta beta) G =
      inner3 F (flexConvTransposeCore G P j theta beta) := by
  unfold inner3 flexConvCore flexConvTransposeCore
  refine Finset.sum_congr rfl fun b _ => ?_
  conv_lhs => simp only [Finset.sum_mul]
  conv_lhs => rw [sum_reorder_onki]
  conv_rhs => simp only [Finset.mul_sum, mul_ite, mul_zero]
  conv_rhs => rw [sum_reorder_imnk]
  conv_rhs => simp only [Finset.sum_ite_eq, Finset.mem_univ, if_true]
  conv_rhs => rw [sum_reorder_ink]
  simp only [mul_assoc]

/-- C1: the transpose kernel is the mathematical adjoint of the convolution
kernel: whenever both operations accept the neighborhood table, the inner
product of `flex_convolution F P Nb theta beta` with `G` equals the inner
product of `F` with `flex_convolution_transpose G P Nb theta beta`. -/
theorem flexconv_transpose_adjoint {B Din Dout Dp K N : ℕ}
    (F : Tensor3 B Din N) (G : Tensor3 B Dout N) (P : Tensor3 B Dp N)
    (nb : ITensor3 B K N)
    (theta : Fin 1 → Fin Dp → Fin Din → Fin Dout → ℚ)
    (beta : Fin Din → Fin Dout → ℚ) (y : Tensor3 B Dout N)
    (z : Tensor3 B Din N)
    (hy : flex_convolution F P nb theta beta = some y)
    (hz : flex_convolution_transpose G P nb theta beta = some z) :
    inner3 y G = inner3 F z := by
  by_cases h : nbValidB N nb = true
  · rw [flex_convolution_some F P nb theta beta h] at hy
    rw [flex_convolution_transpose_some G P nb theta beta h] at hz
    obtain rfl : _ = y := Option.some_inj.mp hy
    obtain rfl : _ = z := Option.some_inj.mp hz
    exact inner3_conv_transpose F G P (nbIdx nb h) theta beta
  · have hnone : flex_convolution F P nb theta beta = none := dif_neg h
    rw [hnone] at hy
    exact absurd hy (by simp)

/-- Witness for C1 at a concrete input: the adjoint identity evaluated on the
concrete `1 × 1 × 1` tensors. -/
theorem flexconv_transpose_adjoint_witness :
    inner3 (flexConvCore exF exP (nbIdx exNb (by decide)) exTheta exBeta)
        exG =
      inner3 exF
        (flexConvTransposeCore exG exP (nbIdx exNb (by decide)) exTheta
          exBeta) :=
  flexconv_transpose_adjoint exF exG exP exNb exTheta exBeta _ _
    (flex_convolution_some _ _ _ _ _ (by decide))
    (flex_convolution_transpose_some _ _ _ _ _ (by decide))

theorem le_foldl_max {K : ℕ} (v : Fin K → ℚ) (l : List (Fin K)) (b : Fin K) :
    v b ≤ v (l.foldl (fun best k => if v best < v k then k else best) b) ∧
    ∀ k ∈ l,
      v k ≤ v (l.foldl (fun best k => if v best < v k then k else best) b) := by
  induction l generalizing b with
  | nil => exact ⟨le_refl _, by simp⟩
  | cons a l ih =>
    simp only [List.foldl_cons]
    have hb : v b ≤ v (if v b < v a then a else b) := by
      by_cases hba : v b < v a
      · simp only [if_pos hba]
        exact le_of_lt hba
      · simp only [if_neg hba]
        exact le_refl _
    have ha : v a ≤ v (if v b < v a then a else b) := by
      by_cases hba : v b < v a
      · simp only [if_pos hba]
        exact le_refl _
      · simp only [if_neg hba]
        exact le_of_not_lt hba
    obtain ⟨h1, h2⟩ := ih (if v b < v a then a else b)
    refine ⟨le_trans hb h1, ?_⟩
    intro k hk
    rcases List.mem_cons.mp hk with rfl | hk'
    · exact le_trans ha h1
    · exact h2 k hk'

theorem argmaxSlot_le {K : ℕ} (v : Fin K → ℚ) (hK : 0 < K) (k : Fin K) :
    v k ≤ v (argmaxSlot v hK) :=
  (le_foldl_max v (List.finRange K) ⟨0, hK⟩).2 k (List.mem_finRange k)

/-- Counterexample for C2 at a concrete input: the public `flex_pooling`
function of `layers.py` succeeds but its value is a single tensor, not a
(output, argmax) pair — the layer discards the argmax the kernel produced. -/
theorem flex_pooling_public_returns_single :
    isOkB (layers_flex_pooling exFr exNbr) = true ∧
    returnsPair (layers_flex_pooling exFr exNbr) = false :=
  ⟨rfl, rfl⟩

/-- C2 as amended: the kernel-level `flex_pooling` operation returns the
(pooled output, argmax) pair — with the output of shape `[B, D, N]`, each
output entry the maximum over the neighbor slots and the argmax recording a
slot that attains it — while the public `flex_pooling` wrapper of `layers.py`
returns only the pooled output tensor, discarding the argmax. -/
theorem flex_pooling_pair_amended :
    (∀ (B D K N : ℕ) (F : Tensor3 B D N) (j : Fin B → Fin K → Fin N → Fin N)
        (hK : 0 < K) (b : Fin B) (d : Fin D) (n : Fin N) (k : Fin K),
      F b d (j b k n) ≤ (flexPoolCore F j hK).1 b d n ∧
      (flexPoolCore F j hK).1 b d n =
        F b d (j b ((flexPoolCore F j hK).2 b d n) n)) ∧
    (∀ (B D K N : ℕ) (dt : DType) (fr : Raw3 B D N) (nbr : Raw3 B K N)
        (p : Tensor3 B D N × (Fin B → Fin D → Fin N → Fin K)),
      flex_pooling (kernelFloat3 dt fr) (kernelNb3 nbr) = some p →
      FlexPooling_call_simple dt (.list fr nbr) = .ok (.single p.1)) := by
  constructor
  · intro B D K N F j hK b d n k
    exact ⟨argmaxSlot_le (fun k => F b d (j b k n)) hK k, rfl⟩
  · intro B D K N dt fr nbr p hp
    simp only [FlexPooling_call_simple]
    rw [hp]

/-- Witness for the amended C2 at a concrete input: over two elements with
values `2` and `5` and a two-slot identity neighborhood, the pooled value
dominates slot `0` and equals the value at the argmax slot, and the wrapper
returns exactly the single pooled tensor. -/
theorem flex_pooling_pair_amended_witness :
    (exFr2.data 0 0 (exJ2 0 0 0) ≤
        (flexPoolCore exFr2.data exJ2 (by decide)).1 0 0 0 ∧
      (flexPoolCore exFr2.data exJ2 (by decide)).1 0 0 0 =
        exFr2.data 0 0
          (exJ2 0 ((flexPoolCore exFr2.data exJ2 (by decide)).2 0 0 0) 0)) ∧
    FlexPooling_call_simple DType.float32 (PoolInputs3.list exFr2 exNbr2) =
      .ok (.single
        (flexPoolCore (kernelFloat3 DType.float32 exFr2)
          (nbIdx (kernelNb3 exNbr2) (by decide)) (by decide)).1) :=
  ⟨flex_pooling_pair_amended.1 1 1 2 2 exFr2.data exJ2 (by decide) 0 0 0 0,
   flex_pooling_pair_amended.2 1 1 2 2 DType.float32 exFr2 exNbr2 _
     (flex_pooling_some _ _ (by decide) (by decide))⟩

end FlexConv
